import Mathlib

/-!
Verification of the client-side note state and synchronization model of the
`rs-note-app` repository (source: `src/src/App.svelte`).

The component keeps a single writable store

  `file : writable of (uuid : string) times (content : (file_name, content))`

whose `content` field is whatever JavaScript value was last placed there
(initially the object with string fields `content` and `file_name`; after a
list-item selection, the result of `JSON.parse`).  We therefore embed
JavaScript/JSON values as the inductive type `Json`, and model `JSON.parse`
and `JSON.stringify` at the level of the JSON grammar, since the selection
handler (`file.update` with `JSON.parse(f.content)`) and the save handler
(`JSON.stringify($file.content)`) are the only producers/consumers of the
serialized `content` blob.
-/

set_option maxHeartbeats 1000000

namespace NoteApp

/-- JavaScript values produced by `JSON.parse`, as stored in the `file`
store's `content` slot.  Numbers are kept as their source lexeme rather than
as IEEE doubles: no claim depends on numeric value, only on parse
success/failure and on equality of values obtained from identical input. -/
inductive Json where
  | null : Json
  | bool : Bool → Json
  | num : String → Json
  | str : String → Json
  | arr : List Json → Json
  | obj : List (String × Json) → Json

/-- JSON insignificant whitespace (space, tab, line feed, carriage return). -/
def isWs (c : Char) : Bool :=
  c = ' ' || c = '\t' || c = '\n' || c = '\r'

/-- Drop leading JSON whitespace. -/
def skipWs : List Char → List Char
  | [] => []
  | c :: cs => if isWs c then skipWs cs else c :: cs

/-- Value of a hexadecimal digit, as accepted in a JSON `\uXXXX` escape. -/
def hexVal (c : Char) : Option Nat :=
  if '0' ≤ c ∧ c ≤ '9' then some (c.toNat - '0'.toNat)
  else if 'a' ≤ c ∧ c ≤ 'f' then some (c.toNat - 'a'.toNat + 10)
  else if 'A' ≤ c ∧ c ≤ 'F' then some (c.toNat - 'A'.toNat + 10)
  else none

/-- Decode one JSON string escape (the characters after a backslash),
returning the decoded character and the remaining input.  `\uXXXX` escapes
follow JavaScript semantics: a high-surrogate escape followed by a
low-surrogate escape combines into one code point.  JavaScript keeps a lone
surrogate as-is in its UTF-16 string; Lean strings hold only scalar values,
so a lone surrogate is modelled as U+FFFD (the parse still succeeds, exactly
as `JSON.parse` succeeds there; no claim inspects such a value). -/
def lowSurrogateEscape (r : List Char) : Option (Nat × List Char) :=
  match r with
  | b1 :: b2 :: g1 :: g2 :: g3 :: g4 :: r2 =>
    if b1 = '\\' ∧ b2 = 'u' then
      match hexVal g1, hexVal g2, hexVal g3, hexVal g4 with
      | some a2, some b2', some c2, some d2 =>
        let m := ((a2 * 16 + b2') * 16 + c2) * 16 + d2
        if 0xDC00 ≤ m ∧ m ≤ 0xDFFF then some (m, r2) else none
      | _, _, _, _ => none
    else none
  | _ => none

def readEscape : List Char → Option (Char × List Char)
  | [] => none
  | e :: r =>
    if e = '"' then some ('"', r)
    else if e = '\\' then some ('\\', r)
    else if e = '/' then some ('/', r)
    else if e = 'b' then some ('\x08', r)
    else if e = 'f' then some ('\x0c', r)
    else if e = 'n' then some ('\n', r)
    else if e = 'r' then some ('\r', r)
    else if e = 't' then some ('\t', r)
    else if e = 'u' then
      match r with
      | h1 :: h2 :: h3 :: h4 :: r' =>
        (match hexVal h1, hexVal h2, hexVal h3, hexVal h4 with
         | some a, some b, some c, some d =>
           let n := ((a * 16 + b) * 16 + c) * 16 + d
           if 0xD800 ≤ n ∧ n ≤ 0xDBFF then
             match lowSurrogateEscape r' with
             | some (m, r2) =>
               some (Char.ofNat (0x10000 + (n - 0xD800) * 0x400 + (m - 0xDC00)), r2)
             | none => some ('�', r')
           else if 0xDC00 ≤ n ∧ n ≤ 0xDFFF then some ('�', r')
           else some (Char.ofNat n, r')
         | _, _, _, _ => none)
      | _ => none
    else none

/-- Body of a JSON string literal (the opening quote already consumed):
collect characters until the closing quote, decoding escapes and rejecting
unescaped control characters, exactly as the JSON grammar demands.  The fuel
argument only bounds recursion; each step consumes at least one input
character, so the fuel supplied by `parseString` can never run out. -/
def parseStrAux : Nat → List Char → Option (List Char × List Char)
  | 0, _ => none
  | _ + 1, [] => none
  | f + 1, c :: cs =>
    if c = '"' then some ([], cs)
    else if c = '\\' then
      match readEscape cs with
      | none => none
      | some (ch, cs') => (parseStrAux f cs').map fun p => (ch :: p.1, p.2)
    else if c.toNat < 0x20 then none
    else (parseStrAux f cs).map fun p => (c :: p.1, p.2)

/-- Parse a JSON string literal body with always-sufficient fuel. -/
def parseString (cs : List Char) : Option (List Char × List Char) :=
  parseStrAux (cs.length + 1) cs

/-- Longest prefix of decimal digits. -/
def digitSpan (cs : List Char) : List Char × List Char :=
  cs.span Char.isDigit

/-- Parse a JSON number lexeme: `-? int frac? exp?` with `int` either `0` or
a nonzero-led digit run.  A malformed tail (for instance a dot with no
digits) is simply not consumed, which makes the surrounding context fail
exactly where `JSON.parse` reports an error. -/
def parseNumber (cs : List Char) : Option (String × List Char) :=
  let (negPart, cs1) :=
    match cs with
    | '-' :: r => (['-'], r)
    | _ => ([], cs)
  let intRes : Option (List Char × List Char) :=
    match cs1 with
    | '0' :: r => some (['0'], r)
    | _ =>
      match digitSpan cs1 with
      | ([], _) => none
      | (ds, r) => some (ds, r)
  match intRes with
  | none => none
  | some (intPart, r1) =>
    let (fracPart, r2) :=
      match r1 with
      | '.' :: r' =>
        (match digitSpan r' with
         | ([], _) => (([] : List Char), r1)
         | (ds, r'') => ('.' :: ds, r''))
      | _ => ([], r1)
    let (expPart, r3) :=
      match r2 with
      | e :: r' =>
        if e = 'e' ∨ e = 'E' then
          match r' with
          | s :: r'' =>
            if s = '+' ∨ s = '-' then
              (match digitSpan r'' with
               | ([], _) => (([] : List Char), r2)
               | (ds, r3') => (e :: s :: ds, r3'))
            else
              (match digitSpan r' with
               | ([], _) => (([] : List Char), r2)
               | (ds, r3') => (e :: ds, r3'))
          | [] => ([], r2)
        else ([], r2)
      | [] => ([], r2)
    some (String.mk (negPart ++ intPart ++ fracPart ++ expPart), r3)

/-- Insert a key/value pair into an object under construction with
JavaScript duplicate-key semantics: a repeated key keeps its original
position but takes the new value. -/
def objInsert (kvs : List (String × Json)) (k : String) (v : Json) :
    List (String × Json) :=
  if kvs.any fun p => p.1 == k then
    kvs.map fun p => if p.1 == k then (k, v) else p
  else kvs ++ [(k, v)]

mutual

/-- Parse one JSON value (leading whitespace allowed), following the JSON
grammar accepted by `JSON.parse`.  The fuel decreases on every nested
value/member/element, and each such nesting consumes input, so the fuel
chosen by `parseJson` (input length plus four) can never be exhausted on an
input the grammar accepts. -/
def parseValue : Nat → List Char → Option (Json × List Char)
  | 0, _ => none
  | f + 1, cs =>
    match skipWs cs with
    | [] => none
    | c :: rest =>
      if c = '"' then
        (parseString rest).map fun p => (Json.str (String.mk p.1), p.2)
      else if c = '\x7b' then
        match skipWs rest with
        | d :: r => if d = '\x7d' then some (Json.obj [], r) else parseMembers f rest []
        | [] => none
      else if c = '[' then
        match skipWs rest with
        | d :: r => if d = ']' then some (Json.arr [], r) else parseElems f rest []
        | [] => none
      else if c = 'n' then
        match rest with
        | c1 :: c2 :: c3 :: r =>
          if c1 = 'u' ∧ c2 = 'l' ∧ c3 = 'l' then some (Json.null, r) else none
        | _ => none
      else if c = 't' then
        match rest with
        | c1 :: c2 :: c3 :: r =>
          if c1 = 'r' ∧ c2 = 'u' ∧ c3 = 'e' then some (Json.bool true, r) else none
        | _ => none
      else if c = 'f' then
        match rest with
        | c1 :: c2 :: c3 :: c4 :: r =>
          if c1 = 'a' ∧ c2 = 'l' ∧ c3 = 's' ∧ c4 = 'e' then
            some (Json.bool false, r)
          else none
        | _ => none
      else (parseNumber (c :: rest)).map fun p => (Json.num p.1, p.2)

/-- Parse the members of a JSON object after the opening brace (at least one
member expected: the empty object is handled by `parseValue`, and a comma
must be followed by another member, so trailing commas are rejected as in
`JSON.parse`). -/
def parseMembers : Nat → List Char → List (String × Json) →
    Option (Json × List Char)
  | 0, _, _ => none
  | f + 1, cs, acc =>
    match skipWs cs with
    | [] => none
    | c :: r =>
      if c = '"' then
        match parseString r with
        | none => none
        | some (kcs, r2) =>
          match skipWs r2 with
          | [] => none
          | c2 :: r3 =>
            if c2 = ':' then
              match parseValue f r3 with
              | none => none
              | some (v, r4) =>
                let acc' := objInsert acc (String.mk kcs) v
                match skipWs r4 with
                | [] => none
                | c3 :: r5 =>
                  if c3 = ',' then parseMembers f r5 acc'
                  else if c3 = '\x7d' then some (Json.obj acc', r5)
                  else none
            else none
      else none

/-- Parse the elements of a JSON array after the opening bracket (at least
one element expected; the empty array is handled by `parseValue`). -/
def parseElems : Nat → List Char → List Json → Option (Json × List Char)
  | 0, _, _ => none
  | f + 1, cs, acc =>
    match parseValue f cs with
    | none => none
    | some (v, r) =>
      match skipWs r with
      | [] => none
      | c :: r2 =>
        if c = ',' then parseElems f r2 (acc ++ [v])
        else if c = ']' then some (Json.arr (acc ++ [v]), r2)
        else none

end

/-- Model of `JSON.parse`: parse one value and require that only whitespace
remains, per the JSON grammar; `none` models the `SyntaxError` throw. -/
def parseJson (s : String) : Option Json :=
  match parseValue (s.data.length + 4) s.data with
  | some (j, rest) => if skipWs rest = [] then some j else none
  | none => none

/-- Lower-case hexadecimal digit character for `n < 16`. -/
def hexDigitChar (n : Nat) : Char :=
  if n < 10 then Char.ofNat ('0'.toNat + n) else Char.ofNat ('a'.toNat + n - 10)

/-- Escape one character the way `JSON.stringify` does: quote and backslash
get two-character escapes, the named control characters get their short
escapes, the remaining control characters get `\u00XX`, and every other
character (all of which Lean strings can hold) is emitted verbatim. -/
def escapeChar (c : Char) : List Char :=
  if c = '"' then ['\\', '"']
  else if c = '\\' then ['\\', '\\']
  else if c = '\x08' then ['\\', 'b']
  else if c = '\t' then ['\\', 't']
  else if c = '\n' then ['\\', 'n']
  else if c = '\x0c' then ['\\', 'f']
  else if c = '\r' then ['\\', 'r']
  else if c.toNat < 0x20 then
    ['\\', 'u', '0', '0', hexDigitChar (c.toNat / 16), hexDigitChar (c.toNat % 16)]
  else [c]

/-- Escape a character list as the body of a JSON string literal. -/
def escapeList (cs : List Char) : List Char :=
  (cs.map escapeChar).flatten

/-- A JSON string literal for `s`, as `JSON.stringify` prints it. -/
def escStr (s : String) : String :=
  "\"" ++ String.mk (escapeList s.data) ++ "\""

mutual

/-- Model of `JSON.stringify` (no spacing argument): literals for `null` and
booleans, the number's lexeme, escaped string literals, and comma-separated
brackets/braces with members in insertion order. -/
def stringifyJson : Json → String
  | Json.null => "null"
  | Json.bool true => "true"
  | Json.bool false => "false"
  | Json.num lex => lex
  | Json.str s => escStr s
  | Json.arr xs => "[" ++ stringifyElems xs ++ "]"
  | Json.obj kvs => "\x7b" ++ stringifyMembers kvs ++ "\x7d"

/-- Comma-separated serialization of array elements. -/
def stringifyElems : List Json → String
  | [] => ""
  | [x] => stringifyJson x
  | x :: xs => stringifyJson x ++ "," ++ stringifyElems xs

/-- Comma-separated serialization of object members. -/
def stringifyMembers : List (String × Json) → String
  | [] => ""
  | [(k, v)] => escStr k ++ ":" ++ stringifyJson v
  | (k, v) :: kvs => escStr k ++ ":" ++ stringifyJson v ++ "," ++ stringifyMembers kvs

end

/-- Error kind for a failed backend `invoke` call (a rejected promise from
`save_file` or `get_files`); the spec calls this `BackendError`. -/
inductive BackendError where
  | backendError : BackendError
deriving DecidableEq

/-- Error kind for a `JSON.parse` throw inside the selection handler; the
spec calls this `SerializationError`. -/
inductive SerializationError where
  | serializationError : SerializationError
deriving DecidableEq

/-- The module-level writable store `file`: an identifier plus the `content`
slot.  The slot is typed in the source as the object with string fields
`file_name` and `content`, but it holds whatever `JSON.parse` returned after
a list-item selection, so it is embedded as a `Json` value. -/
structure NoteStoreState where
  uuid : String
  content : Json

/-- Initial store value from the source:
`uuid ""` with `content` the object whose `content` and `file_name` fields
(in that insertion order) are empty strings. -/
def initialFile : NoteStoreState :=
  ⟨"", Json.obj [("content", Json.str ""), ("file_name", Json.str "")]⟩

/-- A record as returned by the backend (`get_files` / `save_file`): an
identifier and the serialized `content` blob.  The spec calls this
`PersistedRecord`. -/
structure PersistedRecord where
  uuid : String
  content : String
deriving DecidableEq

/-- The component state the claims are about: the `file` store and the
`files` list rendered in the item list (the NoteCollection cache). -/
structure AppState where
  file : NoteStoreState
  files : List PersistedRecord

/-- Field access `o.k` on a JavaScript value, as in `$file.content.file_name`:
`none` models the `undefined` (or TypeError) outcome when the slot does not
hold an object with that string field. -/
def jsStrField (j : Json) (k : String) : Option String :=
  match j with
  | Json.obj kvs =>
    match kvs.lookup k with
    | some (Json.str s) => some s
    | _ => none
  | _ => none

/-- The local binding `let uuid = $file.uuid || crypto.randomUUID()` in
`onClickSave`: the empty string is falsy, so an unsaved note gets the freshly
generated identifier `gen`; a note with an identifier keeps it.  Note this is
a local variable of the handler; the store is never written. -/
def saveUuid (s : AppState) (gen : String) : String :=
  if s.file.uuid = "" then gen else s.file.uuid

/-- The argument object of `invoke("save_file", ...)`. -/
structure SaveReq where
  fileName : Option String
  uuid : String
  content : String
deriving DecidableEq

/-- The payload `onClickSave` sends to the backend:
`fileName: $file.content.file_name`, the locally computed `uuid`, and
`content: JSON.stringify($file.content)`. -/
def saveRequest (s : AppState) (gen : String) : SaveReq :=
  ⟨jsStrField s.file.content "file_name", saveUuid s gen,
    stringifyJson s.file.content⟩

/-- The `onClickSave` handler, run to completion: it reads the store, builds
the request, awaits `invoke("save_file", ...)` (here the abstract backend
function `save_file`), and on success assigns `files = [...data]`.  If the
promise rejects, the `await` throws out of the handler: the assignment to
`files` never runs and no other statement of the handler mutates state, so
the state is returned unchanged together with the surfaced error. -/
def onClickSave (s : AppState) (gen : String)
    (save_file : SaveReq → Except BackendError (List PersistedRecord)) :
    AppState × Option BackendError :=
  match save_file (saveRequest s gen) with
  | Except.error e => (s, some e)
  | Except.ok data => ({ s with files := data }, none)

/-- The `onClick` handler (the "Load all notes" button, also run at start):
awaits `invoke("get_files")` and on success assigns `files = [...data]`; on
rejection the assignment never runs and the error surfaces. -/
def onClick (s : AppState)
    (get_files : Except BackendError (List PersistedRecord)) :
    AppState × Option BackendError :=
  match get_files with
  | Except.error e => (s, some e)
  | Except.ok data => ({ s with files := data }, none)

/-- The list-item `on:click` selection handler:
`file.update (u => (...f, content: JSON.parse(f.content)))`.  The spread of
the record `f` contributes `uuid`; its string `content` is overridden by the
parse result.  A svelte store's `update` sets the store to the callback's
result; when `JSON.parse` throws, the callback never returns, the store is
not set, and the exception (`SerializationError`) surfaces.  Returns the
store after the click and the surfaced error, if any. -/
def selectRecord (st : NoteStoreState) (f : PersistedRecord) :
    NoteStoreState × Option SerializationError :=
  match parseJson f.content with
  | none => (st, some SerializationError.serializationError)
  | some j => (⟨f.uuid, j⟩, none)

/-- Modelled from the spec: the storage backend (the Rust `save_file`
command living in `src-tauri`, which is not under `src/`) "upserts a record
by `uuid`, returns the full updated set" (spec section 6). -/
def upsert (l : List PersistedRecord) (r : PersistedRecord) :
    List PersistedRecord :=
  if l.any fun x => x.uuid == r.uuid then
    l.map fun x => if x.uuid == r.uuid then r else x
  else l ++ [r]

/-- Modelled from the spec: a backend whose persisted set is `prior`,
answering a `save_file` invoke by upserting and returning the full list. -/
def saveFileUpsert (prior : List PersistedRecord) :
    SaveReq → Except BackendError (List PersistedRecord) :=
  fun req => Except.ok (upsert prior ⟨req.uuid, req.content⟩)

/-- The claim-side notion "content is parseable back into title and body"
(spec section 4.4 and claim C5): the blob parses as JSON to an object
carrying string fields `file_name` (the title) and `content` (the body). -/
def decodeContent (content : String) : Option (String × String) :=
  match parseJson content with
  | some (Json.obj kvs) =>
    (match kvs.lookup "file_name", kvs.lookup "content" with
     | some (Json.str t), some (Json.str b) => some (t, b)
     | _, _ => none)
  | _ => none

/-- Modelled from the spec: the markdown renderer is the external npm
package `marked`, invoked reactively in the component as
`marked($file.content.content, ...gfm, smartypants, smartLists...)`; its code
is not part of this repository, and spec section 4.2 fixes it to "a standard
commonmark-compatible renderer".  Only the fragment the claims touch is
modelled: the empty document renders to the empty string; a document that is
a raw-HTML block (a CommonMark HTML block of type 1, opened by a script tag)
is emitted verbatim, because CommonMark requires raw HTML to be passed
through unchanged and the component passes no sanitizer; any other nonempty
text is wrapped in a paragraph.  Every branch returns a string: the model is
total, matching the renderer's documented never-throws contract. -/
def strHasPrefix (p s : String) : Bool :=
  p.data.isPrefixOf s.data

def marked (s : String) : String :=
  if s = "" then ""
  else if strHasPrefix "<script" s then s
  else "<p>" ++ s ++ "</p>\n"

/-- An outstanding backend `invoke`, i.e. a pending promise awaited by one
of the two handlers. -/
inductive PendingCall where
  | save_file : SaveReq → PendingCall
  | get_files : PendingCall
deriving DecidableEq

/-- The interleaved-execution view of the component: the reactive state plus
the outstanding backend calls.  Each handler splits at its single `await`
into a synchronous prefix (which issues the call) and a continuation (which
runs when the call resolves); between those two halves other click handlers
may run. -/
structure World where
  app : AppState
  pending : List PendingCall

/-- Clicking "Save": the synchronous prefix of `onClickSave` up to its
`await` reads the store, computes the identifier and payload, and issues the
`save_file` backend call.  The handler contains no state check and no
rejection path, so the call is always issued, whatever is already pending. -/
def clickSave (w : World) (gen : String) : World :=
  { w with pending := w.pending ++ [PendingCall.save_file (saveRequest w.app gen)] }

/-- Clicking "Load all notes": the synchronous prefix of `onClick` issues
the `get_files` call unconditionally. -/
def clickLoad (w : World) : World :=
  { w with pending := w.pending ++ [PendingCall.get_files] }

/-- The continuation of either handler once its call resolves: both
continuations are the single assignment `files = [...data]`, and a rejected
promise runs no continuation at all. -/
def applyResponse (app : AppState) (_c : PendingCall)
    (resp : Except BackendError (List PersistedRecord)) : AppState :=
  match resp with
  | Except.error _ => app
  | Except.ok data => { app with files := data }

/-- Resolve the oldest outstanding call with the given backend response. -/
def resolvePending (w : World)
    (resp : Except BackendError (List PersistedRecord)) : World :=
  match w.pending with
  | [] => w
  | c :: rest => { app := applyResponse w.app c resp, pending := rest }

/-! ### Helper lemmas: the `JSON.stringify` / `JSON.parse` round trip -/

theorem string_mk_data (s : String) : String.mk s.data = s := rfl

theorem skipWs_cons (c : Char) (cs : List Char) (h : isWs c = false) :
    skipWs (c :: cs) = c :: cs := by
  simp [skipWs, h]

theorem hexVal_hexDigitChar (n : Nat) (h : n < 16) :
    hexVal (hexDigitChar n) = some n := by
  interval_cases n <;> decide

theorem escapeList_nil : escapeList [] = [] := rfl

theorem escapeList_cons (c : Char) (cs : List Char) :
    escapeList (c :: cs) = escapeChar c ++ escapeList cs := by
  simp [escapeList]

theorem escapeChar_length_pos (c : Char) : 1 ≤ (escapeChar c).length := by
  unfold escapeChar
  split_ifs <;> simp

theorem escapeList_length (cs : List Char) :
    cs.length ≤ (escapeList cs).length := by
  induction cs with
  | nil => simp [escapeList]
  | cons c cs ih =>
    rw [escapeList_cons]
    have := escapeChar_length_pos c
    simp only [List.length_append, List.length_cons]
    omega

/-- Core round-trip lemma at the string-literal level: the string-body parser
undoes `escapeChar`-escaping, consuming through the closing quote. -/
theorem parseStrAux_escape (cs : List Char) :
    ∀ (f : Nat) (rest : List Char), cs.length < f →
      parseStrAux f (escapeList cs ++ '"' :: rest) = some (cs, rest) := by
  induction cs with
  | nil =>
    intro f rest hf
    match f, hf with
    | f + 1, _ => simp [escapeList_nil, parseStrAux]
  | cons c cs ih =>
    intro f rest hf
    match f, hf with
    | f + 1, hf =>
      have hf' : cs.length < f := by
        simp only [List.length_cons] at hf; omega
      have ihx := ih f rest hf'
      rw [escapeList_cons, List.append_assoc]
      by_cases h1 : c = '"'
      · subst h1; simp [escapeChar, parseStrAux, readEscape, ihx]
      · by_cases h2 : c = '\\'
        · subst h2; simp [escapeChar, parseStrAux, readEscape, ihx]
        · by_cases h3 : c = '\x08'
          · subst h3; simp [escapeChar, parseStrAux, readEscape, ihx]
          · by_cases h4 : c = '\t'
            · subst h4; simp [escapeChar, parseStrAux, readEscape, ihx]
            · by_cases h5 : c = '\n'
              · subst h5; simp [escapeChar, parseStrAux, readEscape, ihx]
              · by_cases h6 : c = '\x0c'
                · subst h6; simp [escapeChar, parseStrAux, readEscape, ihx]
                · by_cases h7 : c = '\r'
                  · subst h7; simp [escapeChar, parseStrAux, readEscape, ihx]
                  · by_cases h8 : c.toNat < 0x20
                    · have hd1 : hexVal (hexDigitChar (c.toNat / 16)) =
                          some (c.toNat / 16) :=
                        hexVal_hexDigitChar _ (by omega)
                      have hd2 : hexVal (hexDigitChar (c.toNat % 16)) =
                          some (c.toNat % 16) :=
                        hexVal_hexDigitChar _ (by omega)
                      have hn : ((0 * 16 + 0) * 16 + c.toNat / 16) * 16 +
                          c.toNat % 16 = c.toNat := by omega
                      have hn' : c.toNat / 16 * 16 + c.toNat % 16 = c.toNat := by
                        omega
                      have hs1 : ¬(0xD800 ≤ c.toNat ∧ c.toNat ≤ 0xDBFF) := by
                        omega
                      have hs2 : ¬(0xDC00 ≤ c.toNat ∧ c.toNat ≤ 0xDFFF) := by
                        omega
                      have hz : hexVal '0' = some 0 := rfl
                      simp [escapeChar, h1, h2, h3, h4, h5, h6, h7, h8,
                        parseStrAux, readEscape, hz, hd1, hd2, hn, hn', hs1, hs2,
                        Char.ofNat_toNat, ihx]
                    · simp [escapeChar, h1, h2, h3, h4, h5, h6, h7, h8,
                        parseStrAux, ihx]

theorem parseString_escape (cs rest : List Char) :
    parseString (escapeList cs ++ '"' :: rest) = some (cs, rest) := by
  apply parseStrAux_escape
  have := escapeList_length cs
  simp only [List.length_append, List.length_cons]
  omega

theorem escStr_data (s : String) :
    (escStr s).data = '"' :: (escapeList s.data ++ '"' :: []) := by
  simp [escStr, String.data_append]

/-- Parsing a stringified string literal (with fuel available) yields the
original string and leaves the rest of the input untouched. -/
theorem parseValue_escStr (f : Nat) (s : String) (rest : List Char) :
    parseValue (f + 1) ((escStr s).data ++ rest) = some (Json.str s, rest) := by
  rw [escStr_data]
  have h : ('"' :: (escapeList s.data ++ '"' :: [])) ++ rest
      = '"' :: (escapeList s.data ++ '"' :: rest) := by
    simp
  rw [h]
  have hws : isWs '"' = false := rfl
  simp [parseValue, skipWs_cons _ _ hws, parseString_escape, string_mk_data]

theorem string_data_mk (l : List Char) : (String.mk l).data = l := rfl

/-- Parsing the serialized form of the two-field content object reproduces
it exactly, for arbitrary title and body strings and any fuel reserve. -/
theorem parseValue_content_data (f : Nat) (T B : String) :
    parseValue (f + 4)
      ('\x7b' :: '"' :: (escapeList "content".data ++
        ('"' :: ':' :: '"' :: (escapeList B.data ++
          ('"' :: ',' :: '"' :: (escapeList "file_name".data ++
            ('"' :: ':' :: '"' :: (escapeList T.data ++
              ('"' :: '\x7d' :: [])))))))))
      = some (Json.obj [("content", Json.str B), ("file_name", Json.str T)], []) := by
  have hacc1 : objInsert [] "content" (Json.str B) = [("content", Json.str B)] := rfl
  have hacc2 : objInsert [("content", Json.str B)] "file_name" (Json.str T)
      = [("content", Json.str B), ("file_name", Json.str T)] := rfl
  simp [parseValue, parseMembers, skipWs, isWs, parseString_escape,
    string_mk_data, hacc1, hacc2]

/-- The serialize-then-parse round trip for the store's content object
(`JSON.parse` of `JSON.stringify` of the object with string fields
`content` and `file_name`, in the store's insertion order). -/
theorem parseJson_stringify_content (T B : String) :
    parseJson (stringifyJson
        (Json.obj [("content", Json.str B), ("file_name", Json.str T)]))
      = some (Json.obj [("content", Json.str B), ("file_name", Json.str T)]) := by
  have hdata : (stringifyJson
      (Json.obj [("content", Json.str B), ("file_name", Json.str T)])).data
      = '\x7b' :: '"' :: (escapeList "content".data ++
          ('"' :: ':' :: '"' :: (escapeList B.data ++
            ('"' :: ',' :: '"' :: (escapeList "file_name".data ++
              ('"' :: ':' :: '"' :: (escapeList T.data ++
                ('"' :: '\x7d' :: [])))))))) := by
    have hb1 : ("\x7b" : String).data = ['\x7b'] := rfl
    have hb2 : ("\x7d" : String).data = ['\x7d'] := rfl
    have hb3 : (":" : String).data = [':'] := rfl
    have hb4 : ("," : String).data = [','] := rfl
    have hb5 : ("\"" : String).data = ['"'] := rfl
    simp [stringifyJson, stringifyMembers, escStr, String.data_append,
      string_data_mk, hb1, hb2, hb3, hb4, hb5]
  simp only [parseJson, hdata]
  rw [parseValue_content_data]
  simp [skipWs]

/-- An upsert's own record is always in the returned list. -/
theorem mem_upsert (l : List PersistedRecord) (r : PersistedRecord) :
    r ∈ upsert l r := by
  unfold upsert
  split
  · rename_i h
    obtain ⟨x, hx, hxe⟩ := List.any_eq_true.mp h
    exact List.mem_map.mpr ⟨x, hx, by simp [hxe]⟩
  · simp

/-! ### The claims -/

/-- Claim C1: the claim states that after a successful `save()` from an
empty-uuid store, `NoteStore.current.uuid` is non-empty and equals the
freshly generated identifier passed to the backend.  The code violates it:
`let uuid = $file.uuid || crypto.randomUUID()` is a handler-local variable
and the store is never written, so after a successful save the store's uuid
is still empty, and a second save of the same note sends a different fresh
identifier (duplicating instead of updating).  This theorem evaluates the
code at the failing input. -/
theorem save_leaves_store_uuid_empty :
    (saveRequest ⟨initialFile, []⟩ "11111111-2222-3333-4444-555555555555").uuid
        = "11111111-2222-3333-4444-555555555555" ∧
    ("11111111-2222-3333-4444-555555555555" : String) ≠ "" ∧
    ((onClickSave ⟨initialFile, []⟩ "11111111-2222-3333-4444-555555555555"
        (saveFileUpsert [])).1).file.uuid = "" ∧
    (saveRequest
        ((onClickSave ⟨initialFile, []⟩ "11111111-2222-3333-4444-555555555555"
          (saveFileUpsert [])).1)
        "66666666-7777-8888-9999-000000000000").uuid
        = "66666666-7777-8888-9999-000000000000" :=
  ⟨rfl, by decide, rfl, rfl⟩

/-- Claim C2: the claim states that a `load()`/`save()` issued while another
backend call is outstanding is rejected (or queued) without contacting the
backend, so that at most one backend call is ever outstanding.  The code has
no state machine and no `ConcurrentOperationRejected` value at all: clicking
Save while a save is outstanding unconditionally issues a second backend
call.  Starting from the initial state, after one Save click exactly one
call is outstanding, and a second Save click during it makes two backend
calls outstanding at once. -/
theorem second_save_issues_second_backend_call :
    (clickSave ⟨⟨initialFile, []⟩, []⟩ "g1").pending.length = 1 ∧
    (clickSave (clickSave ⟨⟨initialFile, []⟩, []⟩ "g1") "g2").pending
      = [PendingCall.save_file
          ⟨some "", "g1", "\x7b\"content\":\"\",\"file_name\":\"\"\x7d"⟩,
         PendingCall.save_file
          ⟨some "", "g2", "\x7b\"content\":\"\",\"file_name\":\"\"\x7d"⟩] :=
  ⟨rfl, rfl⟩

/-- Claim C3: if the backend `save_file` call fails, `NoteStore.current`
and the `files` list are exactly their pre-call values and the error is
surfaced: the `await` throws before the only mutating statement
`files = [...data]`. -/
theorem save_failure_leaves_state_unchanged (s : AppState) (gen : String)
    (save_file : SaveReq → Except BackendError (List PersistedRecord))
    (e : BackendError) (h : save_file (saveRequest s gen) = Except.error e) :
    onClickSave s gen save_file = (s, some e) := by
  simp [onClickSave, h]

/-- Witness for C3 at a concrete state and failing backend. -/
theorem save_failure_leaves_state_unchanged_witness :
    onClickSave ⟨initialFile, []⟩ "g"
        (fun _ => Except.error BackendError.backendError)
      = (⟨initialFile, []⟩, some BackendError.backendError) :=
  save_failure_leaves_state_unchanged ⟨initialFile, []⟩ "g" _
    BackendError.backendError rfl

/-- Claim C4: the claim states the rendered HTML contains no script
execution vectors.  The component calls `marked` with no sanitizer and
injects the result into the DOM, and a commonmark renderer passes a raw
HTML block through verbatim: markdown consisting of a script element is
emitted unchanged, so the claim fails at this input (the code lacks the
sanitization the spec requires). -/
theorem marked_script_passthrough :
    marked "<script>alert(1)</script>" = "<script>alert(1)</script>" ∧
    strHasPrefix "<script" (marked "<script>alert(1)</script>") = true := by
  constructor <;> decide

/-- Claim C5, counterexample: the claim states that selecting a record
whose `content` is not parseable back into title/body raises
`SerializationError` and leaves the store unchanged.  The handler only runs
`JSON.parse` and never validates the shape: the record with content
`"null"` is not decodable into title/body, yet selection succeeds with no
error and replaces the store with a null-content state. -/
theorem select_unparsable_shape_counterexample :
    decodeContent "null" = none ∧
    selectRecord initialFile ⟨"u1", "null"⟩ = (⟨"u1", Json.null⟩, none) ∧
    (⟨"u1", Json.null⟩ : NoteStoreState) ≠ initialFile := by
  refine ⟨rfl, rfl, fun h => ?_⟩
  exact absurd (congrArg NoteStoreState.uuid h) (by decide)

/-- Claim C5, amended: selecting a record whose `content` fails to parse as
JSON at all (the `JSON.parse` throw) raises `SerializationError` and leaves
`NoteStore.current` exactly unchanged; valid JSON of the wrong shape is
accepted without any error. -/
theorem select_json_parse_failure_rejected (st : NoteStoreState)
    (f : PersistedRecord) (h : parseJson f.content = none) :
    selectRecord st f = (st, some SerializationError.serializationError) := by
  simp [selectRecord, h]

/-- Witness for the amended C5 at a concrete unparsable record. -/
theorem select_json_parse_failure_rejected_witness :
    selectRecord initialFile ⟨"u", "nope"⟩
      = (initialFile, some SerializationError.serializationError) :=
  select_json_parse_failure_rejected initialFile ⟨"u", "nope"⟩ rfl

/-- Claim C6: starting from an empty-uuid store with title `T` and body
`B`, a successful save (backend modelled as an upsert returning the full
list) leaves in the files list a record whose content deserializes back to
exactly the title/body object that was serialized. -/
theorem save_roundtrip_collection_contains_note (T B g : String)
    (files0 prior : List PersistedRecord) :
    ∃ r ∈ (onClickSave
        ⟨⟨"", Json.obj [("content", Json.str B), ("file_name", Json.str T)]⟩,
          files0⟩ g (saveFileUpsert prior)).1.files,
      parseJson r.content
        = some (Json.obj [("content", Json.str B), ("file_name", Json.str T)]) := by
  refine ⟨⟨g, stringifyJson
      (Json.obj [("content", Json.str B), ("file_name", Json.str T)])⟩,
    ?_, parseJson_stringify_content T B⟩
  have hfiles : (onClickSave
      ⟨⟨"", Json.obj [("content", Json.str B), ("file_name", Json.str T)]⟩,
        files0⟩ g (saveFileUpsert prior)).1.files
      = upsert prior ⟨g, stringifyJson
          (Json.obj [("content", Json.str B), ("file_name", Json.str T)])⟩ := rfl
  rw [hfiles]
  exact mem_upsert prior _

/-- Claim C7: selecting the same (parseable) record twice in a row yields
an identical `NoteStore.current` after each of the two selections; the
update callback ignores the previous store value entirely. -/
theorem select_idempotent (st : NoteStoreState) (f : PersistedRecord)
    (j : Json) (h : parseJson f.content = some j) :
    (selectRecord st f).1 = ⟨f.uuid, j⟩ ∧
      selectRecord (selectRecord st f).1 f = selectRecord st f := by
  simp [selectRecord, h]

/-- Witness for C7 at a concrete parseable record. -/
theorem select_idempotent_witness :
    (selectRecord initialFile ⟨"u", "null"⟩).1 = ⟨"u", Json.null⟩ ∧
      selectRecord (selectRecord initialFile ⟨"u", "null"⟩).1 ⟨"u", "null"⟩
        = selectRecord initialFile ⟨"u", "null"⟩ :=
  select_idempotent initialFile ⟨"u", "null"⟩ Json.null rfl

/-- Claim C8: if the backend `get_files` call fails, the failure surfaces
and the cached list is exactly unchanged; if it succeeds, the cached list
is replaced wholesale by the returned list. -/
theorem load_failure_preserves_success_replaces (s : AppState) :
    (∀ e : BackendError, onClick s (Except.error e) = (s, some e)) ∧
    (∀ data : List PersistedRecord,
      onClick s (Except.ok data) = ({ s with files := data }, none)) :=
  ⟨fun _ => rfl, fun _ => rfl⟩

/-- Claim C9: the renderer model is a total function (every branch of
`marked` returns a string, matching the renderer's documented never-throws
contract), and rendering the empty document yields the empty string. -/
theorem marked_empty_returns_empty : marked "" = "" := rfl

/-- Claim C10: a save, successful or failed, never writes the `file` store:
the note's uuid, title (`file_name`) and body (`content`) are all unchanged
afterwards; the handler's only assignment targets the `files` list. -/
theorem save_never_writes_note_store (s : AppState) (gen : String)
    (save_file : SaveReq → Except BackendError (List PersistedRecord)) :
    ((onClickSave s gen save_file).1).file = s.file := by
  unfold onClickSave
  cases save_file (saveRequest s gen) <;> rfl

end NoteApp
